import Mathlib

/-!
Verification development for the `radio` CT-scan preprocessing repository,
centred on `src/preprocessing/ct_masked_batch.py` (class `CTImagesMaskedBatch`).

The embedding is shallow: numpy float arrays become functions into `ℚ`,
integer arrays become `ℤ`/`ℕ` values, the skyscraper buffer becomes a list of
2-dimensional frames (one per z-slice), and the randomness consumed by
`np.random` is passed in explicitly as function arguments.
-/

namespace Radio

/-- Per-scan 3-vector in z,y,x order, rational-valued (models a numpy float row). -/
abbrev Vec3 := Fin 3 → ℚ

/-- One z-slice of the skyscraper buffer: a 2-d array modelled as a function. -/
abbrev Frame := ℤ → ℤ → ℚ

/-- Python `int(q)`: truncation toward zero. -/
def pythonInt (q : ℚ) : ℤ :=
  if 0 ≤ q then ⌊q⌋ else -⌊-q⌋

/-- Numpy `np.rint`: round to nearest integer, ties to even. -/
def npRint (q : ℚ) : ℤ :=
  let f := ⌊q⌋
  let r := q - f
  if r < 1/2 then f
  else if 1/2 < r then f + 1
  else if f % 2 = 0 then f else f + 1

/-- The clamping core of `_shift_out_of_bounds` (ct_masked_batch.py lines 276-287):
given a tentative start coordinate, the patch size, and the image extent on one
axis, first shift the patch inward by the far-side excess (`bias_upper`), then
re-clamp against zero (`bias_lower`). -/
def shift_clamp (start0 size imgSize : ℚ) : ℚ :=
  let endPix := start0 + size
  let biasUpper := if imgSize < endPix then endPix - imgSize else 0
  let startPix1 := start0 - biasUpper
  let biasLower := if startPix1 < 0 then -startPix1 else 0
  startPix1 + biasLower

/-- One axis of `_shift_out_of_bounds` (ct_masked_batch.py lines 261-288), before
the skyscraper bias is added: tentative start is
`rint(|center - origin| / spacing) - rint(size / 2)`, then clamped. -/
def shift_out_of_bounds_axis (center origin spacing size imgSize : ℚ) : ℚ :=
  shift_clamp ((npRint (|center - origin| / spacing) : ℚ) - (npRint (size / 2) : ℚ))
    size imgSize

/-- C3: for every nodule and every patch size, the clamped start coordinate of a
positive candidate (`round(abs(center - origin)/spacing) - round(size/2)`,
shifted inward by the far-side excess first, then re-clamped against zero)
yields a patch of exactly the requested size that lies fully inside
`[0, image_size)` on every axis on which `image_size >= size`. -/
theorem shift_out_of_bounds_axis_in_bounds
    (center origin spacing size imgSize : ℚ) (h : size ≤ imgSize) :
    0 ≤ shift_out_of_bounds_axis center origin spacing size imgSize ∧
      shift_out_of_bounds_axis center origin spacing size imgSize + size ≤ imgSize := by
  unfold shift_out_of_bounds_axis shift_clamp
  set s : ℚ :=
    (npRint (|center - origin| / spacing) : ℚ) - (npRint (size / 2) : ℚ) with hs
  simp only []
  split_ifs <;> constructor <;> linarith

/-- Witness for C3 at the boundary scenario from the spec: a nodule centered
exactly at the scan edge (`center = 100`, `origin = 0`, `spacing = 1`,
`image_size = 100`) with patch size 10 clamps fully inside `[0, 100)`. -/
theorem shift_out_of_bounds_axis_in_bounds_witness :
    0 ≤ shift_out_of_bounds_axis 100 0 1 10 100 ∧
      shift_out_of_bounds_axis 100 0 1 10 100 + 10 ≤ 100 :=
  shift_out_of_bounds_axis_in_bounds 100 0 1 10 100 (by norm_num)

/-- One record of the nodule table: a row of the `self.nodules` rec-array built
by `fetch_nodules_info` (fields `bias`, `origin`, `spacing`, `center`, `size`,
`img_size`), together with the corresponding `self.nodules_pat_pos` entry. -/
structure NoduleRec where
  bias : Vec3
  origin : Vec3
  spacing : Vec3
  center : Vec3
  size : Vec3
  img_size : Vec3
  patPos : ℕ

/-- State of a `CTImagesMaskedBatch`: skyscraper data and mask (one `Frame` per
z-slice), the `_bounds` offset table, the shared cross-section extents
(`data.shape[1]`, `data.shape[2]`), the number of indices (`len(self.index)`),
and the optional `origin` / `spacing` / nodule-table attributes. -/
structure MaskedBatch where
  data : List Frame
  mask : List Frame
  bounds : List ℕ
  shapeY : ℕ
  shapeX : ℕ
  nScans : ℕ
  origin : Option (List Vec3)
  spacing : Option (List Vec3)
  nodules : Option (List NoduleRec)

/-- `sample_random_nodules` (ct_masked_batch.py lines 314-358). Randomness is
explicit: `draws` lists, per requested nodule, the scan position drawn by
`np.random.choice` and the three `np.random.rand` values in `[0, 1)`. The
source computes `shape_z = bounds[sampled] - bounds[sampled + 1]`, in that
order, and `samples = rand * (data_shape - nodule_size) + offset`. -/
def sample_random_nodules (b : MaskedBatch) (draws : List (ℕ × Vec3))
    (noduleSize : Fin 3 → ℤ) : List Vec3 :=
  draws.map fun d =>
    let shapeZ : ℤ := (b.bounds.getD d.1 0 : ℤ) - (b.bounds.getD (d.1 + 1) 0 : ℤ)
    let offset : Vec3 := ![(b.bounds.getD d.1 0 : ℚ), 0, 0]
    let dataShape : Vec3 := ![(shapeZ : ℚ), (b.shapeY : ℚ), (b.shapeX : ℚ)]
    fun i => d.2 i * (dataShape i - (noduleSize i : ℚ)) + offset i

/-- A concrete one-scan batch: depth 8, cross-section 10 × 10, so every axis of
the scan shape dominates the patch size `(2, 2, 2)`. -/
def exampleBatch1 : MaskedBatch where
  data := List.replicate 8 fun _ _ => 0
  mask := List.replicate 8 fun _ _ => 0
  bounds := [0, 8]
  shapeY := 10
  shapeX := 10
  nScans := 1
  origin := some [fun _ => 0]
  spacing := some [fun _ => 1]
  nodules := none

/-- C2, evaluated at a failing input: on a batch whose single scan has shape
`(8, 10, 10) ≥ (2, 2, 2)`, the draw `(scan 0, rand = (1/2, 0, 0))` makes
`sample_random_nodules` return the z start coordinate `-5`, which is outside
the claimed interval `[bias, bias + scan_depth - nodule_size[0]) = [0, 6)` —
the source's `shape_z = bounds[p] - bounds[p+1]` is the negated scan depth. -/
theorem sample_random_nodules_z_below_bias :
    (sample_random_nodules exampleBatch1 [(0, ![1/2, 0, 0])] ![2, 2, 2]).getD 0
        (fun _ => 0) 0 = -5 := by
  norm_num [sample_random_nodules, exampleBatch1]

/-- `get_nodules_jit` (ct_masked_batch.py lines 21-51): crop, for each start
position, a block of `size` voxels from the skyscraper, and restack the blocks
along z into a `(positions.length * size[0], size[1], size[2])` array. A
z-slice outside the data reads as the zero frame (the numpy output array is
zero-initialised). -/
def get_nodules_jit (data : List Frame) (positions : List (Fin 3 → ℤ))
    (size : Fin 3 → ℤ) : List Frame :=
  positions.flatMap fun pos =>
    (List.range (size 0).toNat).map fun dz => fun y x =>
      (data.getD (pos 0 + (dz : ℤ)).toNat fun _ _ => 0) (pos 1 + y) (pos 2 + x)

/-- The positive-candidate count of `sample_nodules` (lines 386-387):
`cancer_n = int(share * batch_size)`, then replaced by `n_nodules` whenever it
exceeds `n_nodules`. -/
def cancer_n (share : ℚ) (batchSize nNodules : ℕ) : ℤ :=
  let c := pythonInt (share * batchSize)
  if (nNodules : ℤ) < c then nNodules else c

/-- `_shift_out_of_bounds` for one nodule record: the per-axis clamped start
coordinate plus the scan's skyscraper bias, truncated to int
(`.astype(np.int)`). -/
def shift_out_of_bounds (r : NoduleRec) (size : Fin 3 → ℤ) : Fin 3 → ℤ :=
  fun i => pythonInt
    (shift_out_of_bounds_axis (r.center i) (r.origin i) (r.spacing i)
        ((size i : ℚ)) (r.img_size i)
      + r.bias i)

/-- The positive-candidate rows of `sample_nodules` (lines 388-394): the
clamped start coordinates of all nodules, fancy-indexed by the
without-replacement index sample drawn by `np.random.choice` (passed in as
`choice`); with an empty nodule table the source short-circuits to a `(0, 3)`
array. -/
def sample_nodules_cancer_rows (tbl : List NoduleRec) (choice : ℕ → List ℕ)
    (share : ℚ) (batchSize : ℕ) (noduleSize : Fin 3 → ℤ) : List (Fin 3 → ℤ) :=
  if tbl.length = 0 then []
  else
    (choice (cancer_n share batchSize tbl.length).toNat).filterMap fun i =>
      (tbl.map fun r => shift_out_of_bounds r noduleSize)[i]?

/-- `sample_nodules` (ct_masked_batch.py lines 360-411). Randomness is
explicit: `choice k` is the size-`k` without-replacement index sample of
`np.random.choice`, and `rand m` lists the `m` draws consumed by
`sample_random_nodules`. The final `.astype('int32')` truncates the random
rows toward zero. -/
def sample_nodules (b : MaskedBatch) (choice : ℕ → List ℕ)
    (rand : ℕ → List (ℕ × Vec3)) (batchSize : ℕ) (noduleSize : Fin 3 → ℤ)
    (share : ℚ) : Except String MaskedBatch :=
  match b.nodules with
  | none => .error
      "AttributeError: Info about nodules location must be loaded before calling this method"
  | some tbl =>
    let cN := (cancer_n share batchSize tbl.length).toNat
    let cancerRows := sample_nodules_cancer_rows tbl choice share batchSize noduleSize
    let randomRows := sample_random_nodules b (rand (batchSize - cN)) noduleSize
    let positions : List (Fin 3 → ℤ) :=
      cancerRows ++ randomRows.map fun v => fun i => pythonInt (v i)
    let newData := get_nodules_jit b.data positions noduleSize
    let newMask := get_nodules_jit b.mask positions noduleSize
    let newBounds := (List.range (newData.length + 1)).map fun i =>
      i * (noduleSize 0).toNat
    .ok
      { data := newData, mask := newMask, bounds := newBounds,
        shapeY := (noduleSize 1).toNat, shapeX := (noduleSize 2).toNat,
        nScans := batchSize, origin := none, spacing := none, nodules := none }

/-- A nodule sitting in the middle of `exampleBatch1`'s single scan. -/
def exampleNodule1 : NoduleRec where
  bias := fun _ => 0
  origin := fun _ => 0
  spacing := fun _ => 1
  center := fun _ => 4
  size := fun _ => 2
  img_size := ![8, 10, 10]
  patPos := 0

/-- The one-scan batch with a one-row nodule table attached. -/
def exampleBatch2 : MaskedBatch :=
  { exampleBatch1 with nodules := some [exampleNodule1] }

/-- C1, evaluated at a failing input: `sample_nodules` with `batch_size = 1`,
`nodule_size = (2, 2, 2)`, `share = 4/5` succeeds and returns a batch carrying
no nodule table, origin, or spacing, but its bounds are
`arange(data.shape[0] + 1) * nodule_size[0] = [0, 2, 4]` — length 3 for a
single patch, with `bounds[-1] = 4` while the returned data array has
`shape[0] = 2`, so the result is not a valid skyscraper buffer. -/
theorem sample_nodules_invalid_bounds :
    (sample_nodules exampleBatch2 (fun _ => [])
          (fun m => List.replicate m (0, ![0, 0, 0])) 1 ![2, 2, 2] (4/5)).toOption.map
        (fun nb => (nb.bounds, nb.data.length, nb.origin.isNone, nb.spacing.isNone,
          nb.nodules.isNone))
      = some ([0, 2, 4], 2, true, true, true) := by
  norm_num [sample_nodules, sample_nodules_cancer_rows, sample_random_nodules,
    get_nodules_jit, cancer_n, pythonInt, exampleBatch2, exampleBatch1, Except.toOption,
    List.range_succ]
  decide

/-- C4, counterexample to the claim as stated: with `positive_share = 43/50`,
`batch_size = 10` and `100` nodules available, the source's
`int(share * batch_size)` truncates `8.6` to `8` positives, while
`min(round(share * batch_size), n_nodules) = 9`. -/
theorem cancer_n_round_counterexample :
    cancer_n (43/50) 10 100 ≠ min (round ((43/50 : ℚ) * 10)) 100 := by
  norm_num [cancer_n, pythonInt, round_eq]

/-- Fancy indexing a list by a list of in-range indices keeps every index. -/
theorem length_filterMap_getElem (L : List (Fin 3 → ℤ)) (l : List ℕ)
    (h : ∀ i ∈ l, i < L.length) :
    (l.filterMap fun i => L[i]?).length = l.length := by
  induction l with
  | nil => rfl
  | cons a t ih =>
    have ha : a < L.length := h a (List.mem_cons_self a t)
    rw [List.filterMap_cons, List.getElem?_eq_getElem ha]
    simp [ih fun i hi => h i (List.mem_cons_of_mem a hi)]

/-- C4 (amended): `sample_nodules` selects exactly
`k = min(int(positive_share * batch_size), n_nodules)` positive candidates —
`int(·)` truncating toward zero, not rounding to nearest — sampled without
replacement from the nodule table, and exactly `batch_size - k` random
candidates. The without-replacement draw `choice` and the uniform draws
`draws` are the `np.random` outputs, constrained to their documented shapes. -/
theorem sample_nodules_counts
    (tbl : List NoduleRec) (choice : ℕ → List ℕ) (b : MaskedBatch)
    (draws : ℕ → List (ℕ × Vec3)) (share : ℚ) (batchSize : ℕ)
    (noduleSize : Fin 3 → ℤ)
    (hclen : ∀ k, k ≤ tbl.length → (choice k).length = k)
    (hcmem : ∀ k, k ≤ tbl.length → ∀ i ∈ choice k, i < tbl.length)
    (hdlen : ∀ m, (draws m).length = m)
    (h0 : 0 ≤ share) (_h1 : share ≤ 1) :
    (sample_nodules_cancer_rows tbl choice share batchSize noduleSize).length
        = min (pythonInt (share * batchSize)).toNat tbl.length
      ∧ (sample_random_nodules b
            (draws (batchSize - (cancer_n share batchSize tbl.length).toNat))
            noduleSize).length
        = batchSize - min (pythonInt (share * batchSize)).toNat tbl.length := by
  have hbs0 : (0 : ℚ) ≤ share * batchSize :=
    mul_nonneg h0 (Nat.cast_nonneg batchSize)
  have hc0 : 0 ≤ pythonInt (share * batchSize) := by
    unfold pythonInt
    rw [if_pos hbs0]
    exact Int.floor_nonneg.mpr hbs0
  have hcN : (cancer_n share batchSize tbl.length).toNat
      = min (pythonInt (share * batchSize)).toNat tbl.length := by
    unfold cancer_n
    simp only []
    split_ifs with h <;> omega
  constructor
  · unfold sample_nodules_cancer_rows
    split_ifs with hlen0
    · simp [hlen0]
    · rw [hcN]
      have hle : min (pythonInt (share * batchSize)).toNat tbl.length ≤ tbl.length :=
        min_le_right _ _
      rw [length_filterMap_getElem]
      · exact hclen _ hle
      · intro i hi
        have := hcmem _ hle i hi
        simpa using this
  · simp only [sample_random_nodules, List.length_map, hdlen, hcN]

/-- Witness for C4 (amended) at the spec's scenario: `batch_size = 10`,
`positive_share = 4/5`, a table of only 2 nodules — exactly 2 positive and 8
random candidates. -/
theorem sample_nodules_counts_witness :
    (sample_nodules_cancer_rows [exampleNodule1, exampleNodule1]
          (fun k => List.range k) (4/5) 10 ![2, 2, 2]).length
        = min (pythonInt ((4/5 : ℚ) * 10)).toNat 2
      ∧ (sample_random_nodules exampleBatch1
            (List.replicate (10 - (cancer_n (4/5) 10 2).toNat) (0, ![0, 0, 0]))
            ![2, 2, 2]).length
        = 10 - min (pythonInt ((4/5 : ℚ) * 10)).toNat 2 :=
  sample_nodules_counts [exampleNodule1, exampleNodule1] (fun k => List.range k)
    exampleBatch1 (fun m => List.replicate m (0, ![0, 0, 0])) (4/5) 10 ![2, 2, 2]
    (fun k _ => List.length_range k)
    (fun k hk i hi => lt_of_lt_of_le (List.mem_range.mp hi) hk)
    (fun m => List.length_replicate m _)
    (by norm_num) (by norm_num)

/-- Zero 3-vector, used as the `getD` default for per-scan rows. -/
def zeroVec3 : Vec3 := fun _ => 0

/-- The spacing update of `_rescale_spacing` (ct_masked_batch.py lines
490-496): per scan position, `spacing *= old_shape / new_shape` elementwise;
`oldShapes` lists `self.get_image(patient_id).shape` per scan position. -/
def rescale_spacing_rows (spacing oldShapes : List Vec3) (newShape : Vec3) :
    List Vec3 :=
  List.zipWith (fun sp sh i => sp i * (sh i / newShape i)) spacing oldShapes

/-- The nodule-table update of `_rescale_spacing` (lines 498-505): cached
spacing rows re-read from the batch's updated spacing, `img_size` set to the
new shape, and bias zeroed except `bias[:, 0] = pat_pos * new_shape[0]`. -/
def rescale_spacing_nodules (newSpacing : List Vec3) (newShape : Vec3)
    (tbl : List NoduleRec) : List NoduleRec :=
  tbl.map fun r =>
    { r with
      spacing := newSpacing.getD r.patPos zeroVec3
      img_size := newShape
      bias := fun i => if i = 0 then (r.patPos : ℚ) * newShape 0 else 0 }

/-- C5: after `_rescale_spacing`, each scan's spacing is the old spacing times
`old_shape / new_shape` elementwise (z,y,x), so
`spacing_after * target_shape = spacing_before * original_shape` holds exactly
per axis, and every nodule record's cached spacing, `img_size` and bias fields
are rewritten to the new geometry. -/
theorem rescale_spacing_geometry
    (spacing oldShapes : List Vec3) (newShape : Vec3) (tbl : List NoduleRec)
    (p : ℕ) (i : Fin 3) (hp : p < spacing.length)
    (hl : oldShapes.length = spacing.length) (hnz : newShape i ≠ 0) :
    (rescale_spacing_rows spacing oldShapes newShape).getD p zeroVec3 i * newShape i
        = spacing.getD p zeroVec3 i * oldShapes.getD p zeroVec3 i
      ∧ ∀ r ∈ rescale_spacing_nodules
            (rescale_spacing_rows spacing oldShapes newShape) newShape tbl,
          r.img_size = newShape
            ∧ r.spacing
                = (rescale_spacing_rows spacing oldShapes newShape).getD r.patPos zeroVec3
            ∧ r.bias 0 = (r.patPos : ℚ) * newShape 0 := by
  constructor
  · have hp2 : p < oldShapes.length := by omega
    have hpz : p < (rescale_spacing_rows spacing oldShapes newShape).length := by
      simp [rescale_spacing_rows]
      omega
    rw [List.getD_eq_getElem _ _ hpz, List.getD_eq_getElem _ _ hp,
      List.getD_eq_getElem _ _ hp2]
    simp only [rescale_spacing_rows, List.getElem_zipWith]
    rw [mul_assoc, div_mul_cancel₀ _ hnz]
  · intro r hr
    simp only [rescale_spacing_nodules, List.mem_map] at hr
    obtain ⟨r0, _, rfl⟩ := hr
    refine ⟨rfl, rfl, ?_⟩
    simp

/-- Witness for C5: one scan resampled from shape `(8, 8, 8)` (spacing 1) to
shape `(4, 4, 4)`, with a one-row nodule table. -/
theorem rescale_spacing_geometry_witness :
    (rescale_spacing_rows [fun _ => 1] [fun _ => 8] (fun _ => 4)).getD 0 zeroVec3 0
          * (fun _ : Fin 3 => (4 : ℚ)) 0
        = [fun _ => (1 : ℚ)].getD 0 zeroVec3 0 * [fun _ => (8 : ℚ)].getD 0 zeroVec3 0
      ∧ ∀ r ∈ rescale_spacing_nodules
            (rescale_spacing_rows [fun _ => 1] [fun _ => 8] fun _ => 4)
            (fun _ => 4) [exampleNodule1],
          r.img_size = (fun _ => 4)
            ∧ r.spacing
                = (rescale_spacing_rows [fun _ => 1] [fun _ => 8] fun _ => 4).getD
                    r.patPos zeroVec3
            ∧ r.bias 0 = (r.patPos : ℚ) * (fun _ : Fin 3 => (4 : ℚ)) 0 :=
  rescale_spacing_geometry [fun _ => 1] [fun _ => 8] (fun _ => 4) [exampleNodule1]
    0 0 (by norm_num) (by norm_num) (by norm_num)

/-- Modelled from the spec: `any_action_failed` from the absent
`dataset_import` collaborator module — true iff at least one per-scan parallel
task result is a failure. -/
def any_action_failed (rs : List (Except String Unit)) : Bool :=
  rs.any fun r => !r.isOk

/-- Python `assert e`: succeeds iff the asserted expression is truthy. -/
def pythonAssert (truthy : Bool) : Except String Unit :=
  if truthy then .ok () else .error "AssertionError"

/-- Python truthiness of a string: non-empty strings are truthy. -/
def pythonTruthyString (s : String) : Bool := s ≠ ""

/-- `_post_create_mask` (ct_masked_batch.py lines 583-586): when any task
failed it executes `assert "Some actions failed during threading"` — an
`assert` applied to a string literal, not to a condition — and then returns
`self` either way. -/
def post_create_mask (rs : List (Except String Unit)) : Except String Unit :=
  if any_action_failed rs then
    pythonAssert (pythonTruthyString "Some actions failed during threading")
  else .ok ()

/-- C6, evaluated at a failing input: with the task for scan position 2
failed, `_post_create_mask` detects the failure (`any_action_failed` is true)
yet returns normally: the `assert` on a non-empty string literal is always
truthy, so no aggregate error naming the failed scan positions is raised. -/
theorem post_create_mask_swallows_failure :
    any_action_failed [.ok (), .ok (), .error "task for scan position 2 raised"]
        = true
      ∧ post_create_mask [.ok (), .ok (), .error "task for scan position 2 raised"]
        = .ok () := by
  constructor <;> rfl

/-- `get_mask` (ct_masked_batch.py lines 185-208) at an integer position:
admits `index` iff `index < bounds.shape[0] - 1 and index >= 0`, then returns
the view `mask[bounds[pos] : bounds[pos + 1], :, :]`; otherwise raises
`IndexError`. -/
def get_mask_at (b : MaskedBatch) (index : ℤ) : Except String (List Frame) :=
  if index < (b.bounds.length : ℤ) - 1 ∧ 0 ≤ index then
    let lower := b.bounds.getD index.toNat 0
    let upper := b.bounds.getD (index.toNat + 1) 0
    .ok ((b.mask.drop lower).take (upper - lower))
  else .error "IndexError: Index is out of range"

/-- C8: for a batch of `N` scans (`bounds` of length `N + 1`), `get_mask` at
integer position `p` raises `IndexError` iff `p < 0` or `p ≥ N`, and
otherwise returns exactly the sub-volume `mask[bounds[p] : bounds[p + 1]]`. -/
theorem get_mask_contract (b : MaskedBatch) (N : ℕ) (p : ℤ)
    (hb : b.bounds.length = N + 1) :
    ((p < 0 ∨ (N : ℤ) ≤ p) →
        get_mask_at b p = .error "IndexError: Index is out of range")
      ∧ (0 ≤ p → p < (N : ℤ) →
          get_mask_at b p
            = .ok ((b.mask.drop (b.bounds.getD p.toNat 0)).take
                (b.bounds.getD (p.toNat + 1) 0 - b.bounds.getD p.toNat 0))) := by
  constructor
  · intro hout
    have hc : ¬(p < (b.bounds.length : ℤ) - 1 ∧ 0 ≤ p) := by
      rw [hb]
      push_cast
      omega
    unfold get_mask_at
    rw [if_neg hc]
  · intro h0 hN
    have hc : p < (b.bounds.length : ℤ) - 1 ∧ 0 ≤ p := by
      rw [hb]
      push_cast
      omega
    unfold get_mask_at
    rw [if_pos hc]

/-- Witness for C8 on the concrete one-scan batch: position 0 is in range and
returns the slice `mask[bounds[0] : bounds[1]]`. -/
theorem get_mask_contract_witness :
    get_mask_at exampleBatch1 0
      = .ok ((exampleBatch1.mask.drop (exampleBatch1.bounds.getD (0 : ℤ).toNat 0)).take
          (exampleBatch1.bounds.getD ((0 : ℤ).toNat + 1) 0
            - exampleBatch1.bounds.getD (0 : ℤ).toNat 0)) :=
  (get_mask_contract exampleBatch1 1 0 (by rfl)).2 (by norm_num) (by norm_num)

/-- Voxel size of a nodule in `create_mask` (ct_masked_batch.py line 303):
`rint(size / spacing)`, per axis. -/
def create_mask_size_pix (r : NoduleRec) : Fin 3 → ℤ :=
  fun i => npRint (r.size i / r.spacing i)

/-- Start voxel of a nodule in `create_mask` (lines 301-304):
`rint(|center - origin| / spacing) - rint(size_pix / 2)`, per axis. -/
def create_mask_start_pix (r : NoduleRec) : Fin 3 → ℤ :=
  fun i => npRint (|r.center i - r.origin i| / r.spacing i)
    - npRint ((create_mask_size_pix r i : ℚ) / 2)

/-- Box membership: voxel `(z, y, x)` lies in `[start, start + size)`. -/
def in_box (start size : Fin 3 → ℤ) (z y x : ℤ) : Bool :=
  decide (start 0 ≤ z ∧ z < start 0 + size 0
    ∧ start 1 ≤ y ∧ y < start 1 + size 1
    ∧ start 2 ≤ x ∧ x < start 2 + size 2)

/-- The `(start, size)` box pairs `create_mask` hands to `make_mask_patient`
for one scan position: the rows of `start_pix` / `size_pix` selected by
`nodules_pat_pos == pos`. -/
def patient_boxes (tbl : List NoduleRec) (p : ℕ) :
    List ((Fin 3 → ℤ) × (Fin 3 → ℤ)) :=
  (tbl.filter fun r => r.patPos = p).map fun r =>
    (create_mask_start_pix r, create_mask_size_pix r)

/-- Apply an index-dependent frame update to each list element, indices
starting at `k`. -/
def updateFrames (g : ℕ → Frame → Frame) : ℕ → List Frame → List Frame
  | _, [] => []
  | k, f :: rest => g k f :: updateFrames g (k + 1) rest

/-- Modelled from the spec: `make_mask_patient` from the absent `mask.py`,
acting through the view `mask[lo : hi]` that `get_mask` hands it — for each
nodule `(start, size)` box it fills the axis-aligned region
`[start, start + size)` of the view with value 1, leaving every other voxel
unchanged (multiple nodules are unioned). The in-place mutation of the view is
expressed as a pointwise update of the whole mask restricted to z-indices in
`[lo, hi)`. -/
def make_mask_patient_global (mask : List Frame) (lo hi : ℕ)
    (boxes : List ((Fin 3 → ℤ) × (Fin 3 → ℤ))) : List Frame :=
  updateFrames
    (fun z f y x =>
      if lo ≤ z ∧ z < hi
          ∧ (boxes.any fun bx => in_box bx.1 bx.2 ((z : ℤ) - lo) y x) = true
      then 1 else f y x)
    0 mask

/-- One iteration of `create_mask`'s patient loop (lines 305-310): when the
scan position owns at least one nodule, fill its boxes into the scan's window
`[bounds[p], bounds[p + 1])` of the mask. -/
def create_mask_step (tbl : List NoduleRec) (bounds : List ℕ)
    (m : List Frame) (p : ℕ) : List Frame :=
  if tbl.any fun r => r.patPos = p then
    make_mask_patient_global m (bounds.getD p 0) (bounds.getD (p + 1) 0)
      (patient_boxes tbl p)
  else m

/-- The full mask rebuild of `create_mask`: the patient loop over all scan
positions. -/
def create_mask_update (tbl : List NoduleRec) (bounds : List ℕ) (nScans : ℕ)
    (mask : List Frame) : List Frame :=
  (List.range nScans).foldl (create_mask_step tbl bounds) mask

/-- `create_mask` (ct_masked_batch.py lines 290-312): raises `AttributeError`
when the nodule table has not been built; otherwise rebuilds the mask from the
table and returns the batch. -/
def create_mask (b : MaskedBatch) : Except String MaskedBatch :=
  match b.nodules with
  | none => .error
      "AttributeError: Info about nodules location must be loaded before calling this method"
  | some tbl => .ok { b with mask := create_mask_update tbl b.bounds b.nScans b.mask }

/-- C7: with no nodule table built (`nodules is None`), both `create_mask` and
`sample_nodules` fail synchronously with the `AttributeError` guard at the top
of the method, before any work happens; being modelled as pure state
transformers, they produce no modified batch state. -/
theorem missing_nodules_guard (b : MaskedBatch) (choice : ℕ → List ℕ)
    (rand : ℕ → List (ℕ × Vec3)) (batchSize : ℕ) (noduleSize : Fin 3 → ℤ)
    (share : ℚ) (h : b.nodules = none) :
    create_mask b
        = .error
          "AttributeError: Info about nodules location must be loaded before calling this method"
      ∧ sample_nodules b choice rand batchSize noduleSize share
        = .error
          "AttributeError: Info about nodules location must be loaded before calling this method" := by
  unfold create_mask sample_nodules
  rw [h]
  exact ⟨rfl, rfl⟩

/-- Witness for C7: the concrete batch with `nodules = none` makes both
operations fail with the `AttributeError`. -/
theorem missing_nodules_guard_witness :
    create_mask exampleBatch1
        = .error
          "AttributeError: Info about nodules location must be loaded before calling this method"
      ∧ sample_nodules exampleBatch1 (fun _ => [])
          (fun m => List.replicate m (0, ![0, 0, 0])) 1 ![2, 2, 2] (4/5)
        = .error
          "AttributeError: Info about nodules location must be loaded before calling this method" :=
  missing_nodules_guard exampleBatch1 (fun _ => [])
    (fun m => List.replicate m (0, ![0, 0, 0])) 1 ![2, 2, 2] (4/5) rfl

/-- Pointwise view of `updateFrames`: element `i` is the update of the old
element at the shifted index. -/
theorem updateFrames_getElem? (g : ℕ → Frame → Frame) (m : List Frame) (k i : ℕ) :
    (updateFrames g k m)[i]? = (m[i]?).map (g (k + i)) := by
  induction m generalizing k i with
  | nil => simp [updateFrames]
  | cons f rest ih =>
    cases i with
    | zero => simp [updateFrames]
    | succ j =>
      simp only [updateFrames, List.getElem?_cons_succ, ih (k + 1) j]
      rw [Nat.add_right_comm, Nat.add_assoc]

/-- The condition under which `create_mask`'s patient loop writes value 1 at
global z-index `i` and cross-section coordinates `(y, x)`, for patient `p`. -/
def write_cond (tbl : List NoduleRec) (bounds : List ℕ) (p i : ℕ) (y x : ℤ) :
    Bool :=
  (tbl.any fun r => r.patPos = p)
    && decide (bounds.getD p 0 ≤ i)
    && decide (i < bounds.getD (p + 1) 0)
    && ((patient_boxes tbl p).any fun bx =>
        in_box bx.1 bx.2 ((i : ℤ) - bounds.getD p 0) y x)

/-- Pointwise view of one loop iteration of `create_mask`. -/
theorem create_mask_step_getElem? (tbl : List NoduleRec) (bounds : List ℕ)
    (m : List Frame) (p i : ℕ) :
    (create_mask_step tbl bounds m p)[i]?
      = (m[i]?).map fun f y x =>
          if write_cond tbl bounds p i y x then 1 else f y x := by
  unfold create_mask_step make_mask_patient_global
  by_cases hg : (tbl.any fun r => r.patPos = p) = true
  · rw [if_pos hg, updateFrames_getElem?]
    have ht : (fun f y x =>
        if bounds.getD p 0 ≤ 0 + i ∧ 0 + i < bounds.getD (p + 1) 0
            ∧ ((patient_boxes tbl p).any fun bx =>
                in_box bx.1 bx.2 (((0 + i : ℕ) : ℤ) - bounds.getD p 0) y x) = true
        then (1 : ℚ) else f y x)
        = fun (f : Frame) y x => if write_cond tbl bounds p i y x then 1 else f y x := by
      funext f y x
      simp only [Nat.zero_add, write_cond, hg, Bool.true_and, Bool.and_eq_true,
        decide_eq_true_eq, and_assoc]
    rw [ht]
  · rw [if_neg hg]
    have ht : (fun (f : Frame) y x =>
        if write_cond tbl bounds p i y x then (1 : ℚ) else f y x) = fun f => f := by
      funext f y x
      simp [write_cond, Bool.and_eq_true, hg]
    rw [ht, Option.map_id']

/-- The cumulative write condition of a list of patient-loop iterations. -/
def chain_write (tbl : List NoduleRec) (bounds : List ℕ) (ps : List ℕ) (i : ℕ)
    (f : Frame) : Frame :=
  fun y x => if ps.any fun p => write_cond tbl bounds p i y x then 1 else f y x

/-- Pointwise view of the whole patient loop of `create_mask`. -/
theorem create_mask_fold_getElem? (tbl : List NoduleRec) (bounds : List ℕ)
    (ps : List ℕ) (m : List Frame) (i : ℕ) :
    (ps.foldl (create_mask_step tbl bounds) m)[i]?
      = (m[i]?).map (chain_write tbl bounds ps i) := by
  induction ps generalizing m with
  | nil =>
    have : chain_write tbl bounds [] i = fun f => f := by
      funext f y x
      simp [chain_write]
    rw [List.foldl_nil, this, Option.map_id']
  | cons p ps ih =>
    rw [List.foldl_cons, ih, create_mask_step_getElem?, Option.map_map]
    have : chain_write tbl bounds (p :: ps) i
        = (chain_write tbl bounds ps i) ∘ fun f y x =>
            if write_cond tbl bounds p i y x then 1 else f y x := by
      funext f y x
      simp only [chain_write, Function.comp_apply, List.any_cons, Bool.or_eq_true]
      by_cases h1 : write_cond tbl bounds p i y x = true
        <;> by_cases h2 : (ps.any fun q => write_cond tbl bounds q i y x) = true
        <;> simp [h1, h2]
    rw [this]

/-- Writing value 1 under a fixed condition and keeping other voxels is
idempotent. -/
theorem chain_write_idem (tbl : List NoduleRec) (bounds : List ℕ) (ps : List ℕ)
    (i : ℕ) (f : Frame) :
    chain_write tbl bounds ps i (chain_write tbl bounds ps i f)
      = chain_write tbl bounds ps i f := by
  funext y x
  unfold chain_write
  by_cases h : (ps.any fun p => write_cond tbl bounds p i y x) = true <;> simp [h]

/-- The patient loop of `create_mask` is idempotent on the mask. -/
theorem create_mask_update_idem (tbl : List NoduleRec) (bounds : List ℕ)
    (nScans : ℕ) (mask : List Frame) :
    create_mask_update tbl bounds nScans
        (create_mask_update tbl bounds nScans mask)
      = create_mask_update tbl bounds nScans mask := by
  apply List.ext_getElem?
  intro i
  unfold create_mask_update
  rw [create_mask_fold_getElem?, create_mask_fold_getElem?, Option.map_map]
  have : (chain_write tbl bounds (List.range nScans) i)
        ∘ (chain_write tbl bounds (List.range nScans) i)
      = chain_write tbl bounds (List.range nScans) i := by
    funext f
    exact chain_write_idem tbl bounds (List.range nScans) i f
  rw [this]

/-- C9: with a fixed nodule table, building the mask twice in succession
yields the same batch as building it once — nodule regions are written as
value 1 and unioned with the existing mask, so later writes never erase
earlier ones and `create_mask` is idempotent. -/
theorem create_mask_idempotent (b : MaskedBatch) (tbl : List NoduleRec)
    (h : b.nodules = some tbl) :
    (create_mask b).bind create_mask = create_mask b := by
  simp only [create_mask, h, Except.bind]
  rw [create_mask_update_idem]

/-- Witness for C9 on the concrete one-scan batch with a one-row nodule
table. -/
theorem create_mask_idempotent_witness :
    (create_mask exampleBatch2).bind create_mask = create_mask exampleBatch2 :=
  create_mask_idempotent exampleBatch2 [exampleNodule1] rfl

/-- A Python argument that is either a plain string or a list of strings, as
accepted by `dump` for both `dtype` and `dst`. -/
inductive DumpArg where
  | str : String → DumpArg
  | strList : List String → DumpArg

/-- What Python iteration yields for a `dump` argument: iterating a `str`
yields its individual characters (as length-1 strings), iterating a list
yields its elements. -/
def dumpItems : DumpArg → List String
  | .str s => s.toList.map fun c => String.mk [c]
  | .strList l => l

/-- One blob written by `dump` via `dump_blosc`: the selector that triggered
it, the scan position, and the destination path. -/
structure BlobWrite where
  which : String
  patientPos : ℕ
  path : String

/-- The per-scan loop body of `dump` (ct_masked_batch.py lines 448-459): for
each scan, iterate `zip(dtype, dst)` and write a data blob on selector
`'source'`, a mask blob on selector `'mask'`, and nothing otherwise. -/
def dump_writes (nScans : ℕ) (dtypes dsts : List String) : List BlobWrite :=
  (List.range nScans).flatMap fun p =>
    (dtypes.zip dsts).filterMap fun pr =>
      if pr.1 = "source" then some ⟨"source", p, pr.2⟩
      else if pr.1 = "mask" then some ⟨"mask", p, pr.2⟩
      else none

/-- `dump` (ct_masked_batch.py lines 413-460): argument validation (list
selectors must be drawn from `{'source', 'mask'}` and match `dst` in length;
otherwise both arguments must be strings), then the per-scan write loop over
`zip(dtype, dst)`. -/
def dump_run (nScans : ℕ) (dtype dst : DumpArg) : Except String (List BlobWrite) :=
  match dtype with
  | .strList l =>
      if l.any fun s => decide (s ≠ "source") && decide (s ≠ "mask") then
        .error "ValueError: Argument dtype must be list or tuple containing source or mask"
      else if l.length ≠ (dumpItems dst).length then
        .error "ValueError: Arguments dtype and dst must have the same length if having type list or tuple"
      else .ok (dump_writes nScans (dumpItems (.strList l)) (dumpItems dst))
  | .str _ =>
      match dst with
      | .str _ => .ok (dump_writes nScans (dumpItems dtype) (dumpItems dst))
      | .strList _ => .error "ValueError: Arguments dtype and dst must have the same type"

/-- A length-1 string is never `"source"` or `"mask"`. -/
theorem single_char_not_selector (c : Char) :
    String.mk [c] ≠ "source" ∧ String.mk [c] ≠ "mask" := by
  constructor <;> intro h <;>
    · have hd := congrArg String.data h
      simp at hd

/-- C10: calling `dump` with `dtype` and `dst` both plain strings — the very
form shown in the method's own docstring example — writes no blob at all: the
per-scan loop iterates `zip(dtype, dst)` over the individual characters of the
two strings, no single character equals `'source'` or `'mask'`, so every
scan's data and mask are silently skipped while the call still succeeds. -/
theorem dump_string_args_write_nothing (nScans : ℕ) (s t : String) :
    dump_run nScans (.str s) (.str t) = .ok [] := by
  unfold dump_run
  unfold dump_writes dumpItems
  simp
  intro p _ a b hab
  obtain ⟨ha, -⟩ := List.of_mem_zip hab
  obtain ⟨c, -, rfl⟩ := List.mem_map.mp ha
  rw [if_neg (single_char_not_selector c).1, if_neg (single_char_not_selector c).2]

end Radio
